import Mathlib

/-!
# Verification of the WeatherView core (TTL cache + response mappers)

A shallow embedding, in Lean 4, of the core of the WeatherView repository:

* `services/cache.py` — the in-memory TTL cache (`Cache.get`, `Cache.set`,
  `Cache.delete`, `Cache.clear`, `Cache.cleanup_expired`, `Cache.size`,
  `Cache.stats`);
* `services/weather_api.py` — the pure response-mapping layer
  (current weather, forecast with daily aggregation, location search,
  air pollution), with Unix-timestamp → localized ISO-8601 conversion;
* `app.py` — the cache-interaction core of the request handlers
  (cache-key derivation, hit/miss flow, populate-on-miss).

Python dictionaries are modelled as insertion-ordered association lists,
wall-clock time (`time.time()`) as an explicit rational parameter `now`,
JSON payloads as an inductive type `J`, and raised exceptions as
`Except Err`.  Numbers are rationals (JSON floats) or integers (JSON
ints); machine floating point is not modelled — all arithmetic in the
embedded code (`round(_, 1)`, `// 1000`, `min`, `max`, comparisons) is
exact on the values the claims exercise.
-/

namespace WeatherView

/-! ## Python dictionaries as insertion-ordered association lists -/

/-- Lookup in a Python dict modelled as an association list
(keys are unique in every dict the embedded code builds). -/
def dlookup {α : Type} : List (String × α) → String → Option α
  | [], _ => none
  | (k', v) :: t, k => if k' = k then some v else dlookup t k

/-- `d[k] = v` on a Python dict: overwrite in place if the key is present
(keeping its position), otherwise append at the end — exactly the
insertion-order semantics of CPython dicts. -/
def dinsert {α : Type} : List (String × α) → String → α → List (String × α)
  | [], k, v => [(k, v)]
  | (k', v') :: t, k, v =>
      if k' = k then (k, v) :: t else (k', v') :: dinsert t k v

/-- `del d[k]` on a Python dict: removes the (unique) binding of `k`. -/
def dremove {α : Type} : List (String × α) → String → List (String × α)
  | [], _ => []
  | (k', v') :: t, k => if k' = k then t else (k', v') :: dremove t k

/-- The keys of a dict, in insertion order. -/
def dkeys {α : Type} (l : List (String × α)) : List String := l.map Prod.fst

/-! ## The TTL cache (`services/cache.py`)

The Python class stores arbitrary values (`Any`); the embedding is
polymorphic in the value type `α`.  `time.time()` becomes the explicit
parameter `now : ℚ`. -/

/-- One entry of `Cache._cache`: the dict
`{'data': value, 'expires_at': ..., 'created_at': ...}`. -/
structure CacheEntry (α : Type) where
  data : α
  expires_at : ℚ
  created_at : ℚ
  deriving Repr, DecidableEq

/-- The `Cache` object: `self.ttl` and `self._cache`. -/
structure Cache (α : Type) where
  ttl : ℚ
  store : List (String × CacheEntry α)
  deriving Repr, DecidableEq

namespace Cache

/-- `Cache.get` (`cache.py` lines 20–44): miss on unknown key; on a key
whose entry satisfies `current_time > expires_at`, delete the entry
(lazy eviction) and miss; otherwise hit, returning the stored value and
leaving the cache untouched.  Returns `(result, new cache state)`. -/
def get {α : Type} (c : Cache α) (now : ℚ) (key : String) :
    Option α × Cache α :=
  match dlookup c.store key with
  | none => (none, c)
  | some entry =>
      if now > entry.expires_at then
        (none, ⟨c.ttl, dremove c.store key⟩)
      else
        (some entry.data, c)

/-- `Cache.set` (`cache.py` lines 46–63): stores
`{'data': value, 'expires_at': now + ttl, 'created_at': now}` under
`key`, overwriting unconditionally. -/
def set {α : Type} (c : Cache α) (now : ℚ) (key : String) (value : α) :
    Cache α :=
  ⟨c.ttl, dinsert c.store key ⟨value, now + c.ttl, now⟩⟩

/-- `Cache.delete` (`cache.py` lines 65–79): removes the entry if present
(expired or not); returns whether a removal occurred. -/
def delete {α : Type} (c : Cache α) (key : String) : Bool × Cache α :=
  match dlookup c.store key with
  | some _ => (true, ⟨c.ttl, dremove c.store key⟩)
  | none => (false, c)

/-- `Cache.clear` (`cache.py` lines 81–84). -/
def clear {α : Type} (c : Cache α) : Cache α := ⟨c.ttl, []⟩

/-- `Cache.cleanup_expired` (`cache.py` lines 86–106): first collects the
keys of all entries with `current_time > expires_at`, then deletes each
collected key, and returns how many were collected. -/
def cleanup_expired {α : Type} (c : Cache α) (now : ℚ) : ℕ × Cache α :=
  let expired_keys :=
    (c.store.filter (fun p => decide (now > p.2.expires_at))).map Prod.fst
  (expired_keys.length, ⟨c.ttl, expired_keys.foldl dremove c.store⟩)

/-- `Cache.size` (`cache.py` lines 108–110): physically stored entries,
including expired-but-not-yet-evicted ones. -/
def size {α : Type} (c : Cache α) : ℕ := c.store.length

/-- The dict returned by `Cache.stats`. -/
structure Stats where
  total_entries : ℕ
  active_entries : ℕ
  expired_entries : ℕ
  ttl_seconds : ℚ
  deriving Repr, DecidableEq

/-- `Cache.stats` (`cache.py` lines 112–126): counts entries with
`current_time > expires_at` as expired, the rest as active. -/
def stats {α : Type} (c : Cache α) (now : ℚ) : Stats :=
  let total := c.store.length
  let expired :=
    (c.store.filter (fun p => decide (now > p.2.expires_at))).length
  ⟨total, total - expired, expired, c.ttl⟩

end Cache

/-! ## JSON payloads and Python exceptions

Upstream responses (`response.json()`) are modelled by the inductive
type `J`.  JSON integers and floats are kept apart (`J.i` / `J.n`),
mirroring Python's `int` / `float`.  Exceptions the mapping code can
raise become the error type `Err` of an `Except` monad. -/

/-- A parsed JSON value as Python sees it. -/
inductive J where
  | i (v : ℤ)
  | n (v : ℚ)
  | s (v : String)
  | arr (items : List J)
  | obj (fields : List (String × J))
  deriving Repr

/-- Python exceptions raised by the embedded code, plus the spec's
`MappingError` category (§7 of the spec).  The source never defines or
raises a `MappingError`; the constructor exists only so that claims
about that category are statable. -/
inductive Err where
  | keyError (key : String)
  | indexError
  | typeError
  | valueError (msg : String)
  | mappingError (msg : String)
  deriving Repr, DecidableEq

/-- Does an error belong to the spec's dedicated `MappingError` kind? -/
def Err.isMapping : Err → Bool
  | .mappingError _ => true
  | _ => false

/-- `d[k]` on a JSON object: `KeyError` when absent, `TypeError` when
the value is not a dict. -/
def J.getKey : J → String → Except Err J
  | .obj l, k =>
      match dlookup l k with
      | some v => .ok v
      | none => .error (.keyError k)
  | _, _ => .error .typeError

/-- `d.get(k, default)` on a JSON object. -/
def J.getD : J → String → J → J
  | .obj l, k, d => (dlookup l k).getD d
  | _, _, d => d

/-- `d.get(k)` on a JSON object (default `None`, modelled as `none`). -/
def J.get? : J → String → Option J
  | .obj l, k => dlookup l k
  | _, _ => none

/-- Python truthiness of a JSON value (`if data.get('visibility'):`). -/
def J.truthy : J → Bool
  | .i v => v ≠ 0
  | .n v => v ≠ 0
  | .s v => v ≠ ""
  | .arr items => !items.isEmpty
  | .obj fields => !fields.isEmpty

/-- A JSON value used as a number (`int` or `float`). -/
def J.asNum : J → Except Err ℚ
  | .i v => .ok (v : ℚ)
  | .n v => .ok v
  | _ => .error .typeError

/-- A JSON value used where the code's type annotations require an
`int` (Unix timestamps, timezone offsets in seconds). -/
def J.asInt : J → Except Err ℤ
  | .i v => .ok v
  | _ => .error .typeError

/-- A JSON value used as a string. -/
def J.asStr : J → Except Err String
  | .s v => .ok v
  | _ => .error .typeError

/-- A JSON value used as a list. -/
def J.asArr : J → Except Err (List J)
  | .arr items => .ok items
  | _ => .error .typeError

/-- `l[i]` on a JSON list: `IndexError` when out of range. -/
def listIndex (l : List J) (i : ℕ) : Except Err J :=
  match l.get? i with
  | some v => .ok v
  | none => .error .indexError

/-! ## Python string helpers used by the mappers -/

/-- `s.strip(chars)`: remove, from both ends, every leading/trailing
character that belongs to `chars`. -/
def pyStrip (s : String) (chars : List Char) : String :=
  String.mk
    (((s.toList.dropWhile (· ∈ chars)).reverse.dropWhile (· ∈ chars)).reverse)

/-- One step of `str.title()`: `prev` records whether the previous
character was a cased letter. -/
def pyTitleGo : Bool → List Char → List Char
  | _, [] => []
  | prev, c :: t =>
      if c.isAlpha then
        (if prev then c.toLower else c.toUpper) :: pyTitleGo true t
      else
        c :: pyTitleGo false t

/-- `s.title()` as the mappers use it (ASCII text): capitalize the first
letter of every maximal run of letters, lowercase the rest. -/
def pyTitle (s : String) : String := String.mk (pyTitleGo false s.toList)

/-- `s.strip()` with no argument: remove leading and trailing
whitespace. -/
def pyStripWs (s : String) : String :=
  pyStrip s [' ', '\t', '\n', '\r', '\x0b', '\x0c']

/-- `s.lower()` (ASCII text). -/
def pyLower (s : String) : String :=
  String.mk (s.toList.map Char.toLower)

/-! ## `round(x, 1)` and `_convert_timestamp`

Python's `round(x, 1)` rounds to one decimal, ties to even.  The float
representation error of CPython is not modelled; on the exact decimal
values the claims exercise the two agree.  Both helpers compute on the
numerator/denominator representation directly (field projections and
integer arithmetic) rather than through `ℚ`'s `*`/`/`, so that they
evaluate on concrete inputs. -/

/-- `round(q, 1)`: the integer nearest `q * 10` (ties to even), over
10.  `f` is `⌊q * 10⌋` and `r` the remainder, so `2 * r` against the
denominator compares the fractional part of `q * 10` with `1/2`. -/
def round1 (q : ℚ) : ℚ :=
  let n := 10 * q.num
  let d := (q.den : ℤ)
  let f := Int.fdiv n d
  let r := n - f * d
  let i :=
    if 2 * r < d then f
    else if d < 2 * r then f + 1
    else if f % 2 = 0 then f else f + 1
  mkRat i 10

/-- Python `//` (floor division), as used to convert metres to whole
km: `⌊a / b⌋`, computed on numerators/denominators (the source only
ever divides by the positive literal 1000). -/
def pyFloorDiv (a b : ℚ) : ℤ :=
  let n := a.num * (b.den : ℤ)
  let d := (a.den : ℤ) * b.num
  if 0 ≤ d then Int.fdiv n d else Int.fdiv (-n) (-d)

/-- Zero-padded 2-digit decimal field of an ISO timestamp. -/
def pad2 (n : ℤ) : String :=
  if n < 10 then "0" ++ toString n else toString n

/-- Zero-padded 4-digit year field of an ISO timestamp. -/
def pad4 (n : ℤ) : String :=
  if n < 10 then "000" ++ toString n
  else if n < 100 then "00" ++ toString n
  else if n < 1000 then "0" ++ toString n
  else toString n

/-- Days since 1970-01-01 to calendar `(year, month, day)` (proleptic
Gregorian; the civil-from-days algorithm `datetime` implements). -/
def civilFromDays (z0 : ℤ) : ℤ × ℤ × ℤ :=
  let z := z0 + 719468
  let era := Int.fdiv z 146097
  let doe := z - era * 146097
  let yoe := (doe - doe / 1460 + doe / 36524 - doe / 146096) / 365
  let y := yoe + era * 400
  let doy := doe - (365 * yoe + yoe / 4 - yoe / 100)
  let mp := (5 * doy + 2) / 153
  let d := doy - (153 * mp + 2) / 5 + 1
  let m := if mp < 10 then mp + 3 else mp - 9
  (if m ≤ 2 then y + 1 else y, m, d)

/-- The `±HH:MM[:SS]` suffix `datetime.isoformat()` prints for a fixed
UTC offset given in seconds. -/
def formatOffset (off : ℤ) : String :=
  let sign := if off < 0 then "-" else "+"
  let a := (off.natAbs : ℤ)
  let hh := a / 3600
  let mm := a % 3600 / 60
  let ss := a % 60
  sign ++ pad2 hh ++ ":" ++ pad2 mm ++
    (if ss = 0 then "" else ":" ++ pad2 ss)

/-- `WeatherAPI._convert_timestamp` (`weather_api.py` lines 139–146):
Unix timestamp plus timezone offset (both `int`, in seconds) to the
ISO-8601 string of the local time carrying that offset. -/
def convertTimestamp (ts off : ℤ) : String :=
  let localSec := ts + off
  let days := Int.fdiv localSec 86400
  let secs := localSec - days * 86400
  let ymd := civilFromDays days
  let hh := secs / 3600
  let mi := secs % 3600 / 60
  let ss := secs % 60
  pad4 ymd.1 ++ "-" ++ pad2 ymd.2.1 ++ "-" ++ pad2 ymd.2.2 ++ "T" ++
    pad2 hh ++ ":" ++ pad2 mi ++ ":" ++ pad2 ss ++ formatOffset off

/-! ## Normalized records (`weather_api.py` output dicts) -/

/-- `'°C' if units == 'metric' else '°F'`. -/
def tempUnitFor (units : String) : String :=
  if units = "metric" then "°C" else "°F"

/-- `'m/s' if units == 'metric' else 'mph'`. -/
def windUnitFor (units : String) : String :=
  if units = "metric" then "m/s" else "mph"

/-- The dict returned by `WeatherAPI.get_current_weather`
(`weather_api.py` lines 171–189), fields in source order. -/
structure CurrentWeather where
  city : String
  country : String
  local_time_iso : String
  timezone_offset : ℤ
  temp : ℚ
  temp_unit : String
  feels_like : ℚ
  humidity : ℚ
  pressure : ℚ
  wind_speed : ℚ
  wind_unit : String
  wind_deg : ℚ
  visibility : ℤ
  description : String
  icon : String
  lat : ℚ
  lon : ℚ
  deriving Repr, DecidableEq

/-- One `point_data` dict of the forecast loop (`weather_api.py`
lines 217–229), fields in source order. -/
structure ForecastPoint where
  ts_iso : String
  temp : ℚ
  temp_min : ℚ
  temp_max : ℚ
  temp_unit : String
  icon : String
  description : String
  humidity : ℚ
  pressure : ℚ
  wind_speed : ℚ
  visibility : ℤ
  deriving Repr, DecidableEq

/-- One `daily_data[date_key]` dict (`weather_api.py` lines 234–241),
fields in source order. -/
structure DailyEntry where
  date : String
  temp_min : ℚ
  temp_max : ℚ
  icon : String
  description : String
  temp_unit : String
  deriving Repr, DecidableEq

/-- The dict returned by `WeatherAPI.get_forecast`
(`weather_api.py` lines 249–257). -/
structure Forecast where
  city : String
  country : String
  timezone_offset : ℤ
  lat : ℚ
  lon : ℚ
  points : List ForecastPoint
  daily_forecast : List DailyEntry
  deriving Repr, DecidableEq

/-- One location dict built by `WeatherAPI.search_locations`
(`weather_api.py` lines 70–77), fields in source order. -/
structure Location where
  name : String
  country : String
  state : String
  lat : ℚ
  lon : ℚ
  display_name : String
  deriving Repr, DecidableEq

/-- The dict returned by `WeatherAPI.get_air_pollution`
(`weather_api.py` lines 121–130), fields in source order. -/
structure AirQuality where
  aqi : ℚ
  aqi_description : String
  pm2_5 : ℚ
  pm10 : ℚ
  no2 : ℚ
  o3 : ℚ
  co : ℚ
  so2 : ℚ
  deriving Repr, DecidableEq

/-! ## The mappers (pure transforms of `weather_api.py`)

Each mapper takes the parsed upstream JSON (the value of
`response.json()` after a 200 response) and evaluates the source's
field accesses in source order, so the first missing field raises the
same exception the Python code would. -/

/-- The mapping part of `WeatherAPI.get_current_weather`
(`weather_api.py` lines 161–189). -/
def mapCurrentWeather (data : J) (units : String) :
    Except Err CurrentWeather := do
  let timezone_offset ← (data.getD "timezone" (J.i 0)).asInt
  let dt ← (← data.getKey "dt").asInt
  let current_time := convertTimestamp dt timezone_offset
  let temp_unit := tempUnitFor units
  let wind_unit := windUnitFor units
  let city ← (← data.getKey "name").asStr
  let sys ← data.getKey "sys"
  let country ← (← sys.getKey "country").asStr
  let main ← data.getKey "main"
  let temp ← (← main.getKey "temp").asNum
  let feels_like ← (← main.getKey "feels_like").asNum
  let humidity ← (← main.getKey "humidity").asNum
  let pressure ← (main.getD "pressure" (J.i 0)).asNum
  let wind ← data.getKey "wind"
  let wind_speed ← (← wind.getKey "speed").asNum
  let wind_deg ← (wind.getD "deg" (J.i 0)).asNum
  let visibility ←
    match data.get? "visibility" with
    | some vj =>
        if vj.truthy then do
          let v ← vj.asNum
          pure (pyFloorDiv v 1000)
        else pure (0 : ℤ)
    | none => pure (0 : ℤ)
  let weather ← (← data.getKey "weather").asArr
  let w0 ← listIndex weather 0
  let description ← (← w0.getKey "description").asStr
  let icon ← (← w0.getKey "icon").asStr
  let coord ← data.getKey "coord"
  let lat ← (← coord.getKey "lat").asNum
  let lon ← (← coord.getKey "lon").asNum
  pure ⟨city, country, current_time, timezone_offset, round1 temp,
    temp_unit, round1 feels_like, humidity, pressure,
    round1 wind_speed, wind_unit, wind_deg, visibility,
    pyTitle description, icon, lat, lon⟩

/-- The mapping of one geocoding item (`weather_api.py` lines 70–77):
`display_name` is the f-string `"<name>, <state> <country>"` passed to
`.strip(', ')`. -/
def mapLocationItem (item : J) : Except Err Location := do
  let name ← (← item.getKey "name").asStr
  let country ← (← item.getKey "country").asStr
  let state ← (item.getD "state" (J.s "")).asStr
  let lat ← (← item.getKey "lat").asNum
  let lon ← (← item.getKey "lon").asNum
  let display_name :=
    pyStrip (name ++ ", " ++ state ++ " " ++ country) [',', ' ']
  pure ⟨name, country, state, lat, lon, display_name⟩

/-- The mapping part of `WeatherAPI.search_locations`
(`weather_api.py` lines 67–80): map every item of the geocoding list. -/
def mapLocations (data : List J) : Except Err (List Location) :=
  data.mapM mapLocationItem

/-- `aqi_descriptions.get(aqi_value, "Unknown")`
(`weather_api.py` lines 110–116, 123). -/
def aqiDescription (a : ℚ) : String :=
  if a = 1 then "Good"
  else if a = 2 then "Fair"
  else if a = 3 then "Moderate"
  else if a = 4 then "Poor"
  else if a = 5 then "Very Poor"
  else "Unknown"

/-- The mapping part of `WeatherAPI.get_air_pollution`
(`weather_api.py` lines 107–130). -/
def mapAirPollution (data : J) : Except Err AirQuality := do
  let listj ← (← data.getKey "list").asArr
  let item0 ← listIndex listj 0
  let mainj ← item0.getKey "main"
  let aqi ← (← mainj.getKey "aqi").asNum
  let components ← item0.getKey "components"
  let pm2_5 ← (components.getD "pm2_5" (J.i 0)).asNum
  let pm10 ← (components.getD "pm10" (J.i 0)).asNum
  let no2 ← (components.getD "no2" (J.i 0)).asNum
  let o3 ← (components.getD "o3" (J.i 0)).asNum
  let co ← (components.getD "co" (J.i 0)).asNum
  let so2 ← (components.getD "so2" (J.i 0)).asNum
  pure ⟨aqi, aqiDescription aqi, pm2_5, pm10, no2, o3, co, so2⟩

/-- `date_key = ts_iso.split('T')[0]` (`weather_api.py` line 215):
the calendar-date prefix of a point's localized ISO timestamp. -/
def ForecastPoint.dateKey (p : ForecastPoint) : String :=
  String.mk (p.ts_iso.toList.takeWhile (fun c => c ≠ 'T'))

/-- The fresh `daily_data[date_key]` dict created for a date's first
point (`weather_api.py` lines 233–241). -/
def freshDaily (p : ForecastPoint) : DailyEntry :=
  ⟨p.dateKey, p.temp_min, p.temp_max, p.icon, p.description, p.temp_unit⟩

/-- The daily-aggregation step the loop body performs on `daily_data`
for one point (`weather_api.py` lines 232–244): create the date's entry
on first sight, otherwise fold the point's `temp_min`/`temp_max` into
the running min/max. -/
def aggStep (daily : List (String × DailyEntry)) (p : ForecastPoint) :
    List (String × DailyEntry) :=
  match dlookup daily p.dateKey with
  | none => dinsert daily p.dateKey (freshDaily p)
  | some e =>
      dinsert daily p.dateKey
        ⟨e.date, min e.temp_min p.temp_min, max e.temp_max p.temp_max,
          e.icon, e.description, e.temp_unit⟩

/-- The mapping of one forecast list item to its `point_data`
(`weather_api.py` lines 214–229), accesses in source order. -/
def mapForecastPoint (tz : ℤ) (units : String) (item : J) :
    Except Err ForecastPoint := do
  let dt ← (← item.getKey "dt").asInt
  let ts_iso := convertTimestamp dt tz
  let main ← item.getKey "main"
  let temp ← (← main.getKey "temp").asNum
  let temp_min ← (← main.getKey "temp_min").asNum
  let temp_max ← (← main.getKey "temp_max").asNum
  let weather ← (← item.getKey "weather").asArr
  let w0 ← listIndex weather 0
  let icon ← (← w0.getKey "icon").asStr
  let description ← (← w0.getKey "description").asStr
  let humidity ← (← main.getKey "humidity").asNum
  let pressure ← (main.getD "pressure" (J.i 0)).asNum
  let wind ← item.getKey "wind"
  let wind_speed ← (← wind.getKey "speed").asNum
  let vis ← (item.getD "visibility" (J.i 10000)).asNum
  pure ⟨ts_iso, round1 temp, round1 temp_min, round1 temp_max,
    tempUnitFor units, icon, pyTitle description, humidity, pressure,
    round1 wind_speed, pyFloorDiv vis 1000⟩

/-- The `for item in data['list']` loop (`weather_api.py` lines
213–244): append each mapped point and apply `aggStep` to
`daily_data`; the first failing item aborts with its exception. -/
def processForecastItems (tz : ℤ) (units : String) :
    List J → List ForecastPoint × List (String × DailyEntry) →
    Except Err (List ForecastPoint × List (String × DailyEntry))
  | [], acc => .ok acc
  | item :: rest, acc => do
      let p ← mapForecastPoint tz units item
      processForecastItems tz units rest (acc.1 ++ [p], aggStep acc.2 p)

/-- The mapping part of `WeatherAPI.get_forecast` (`weather_api.py`
lines 204–257): `data['city']['timezone']` first (no default), then the
point loop, then `daily_forecast = list(daily_data.values())[:7]` and
the header fields, in source order. -/
def mapForecast (data : J) (units : String) : Except Err Forecast := do
  let city ← data.getKey "city"
  let timezone_offset ← (← city.getKey "timezone").asInt
  let listj ← (← data.getKey "list").asArr
  let acc ← processForecastItems timezone_offset units listj ([], [])
  let daily_forecast := (acc.2.map Prod.snd).take 7
  let name ← (← city.getKey "name").asStr
  let country ← (← city.getKey "country").asStr
  let coord ← city.getKey "coord"
  let lat ← (← coord.getKey "lat").asNum
  let lon ← (← coord.getKey "lon").asNum
  pure ⟨name, country, timezone_offset, lat, lon, acc.1, daily_forecast⟩

/-! ## Request handlers (`app.py`): cache-interaction core

The module-level `cache = Cache(ttl=600)` is the handler's state
parameter; the upstream HTTP fetch is a parameter holding the parsed
JSON the provider would return on success.  A handler returns the
response payload (or the propagated error) together with the new state
of the module-level cache. -/

/-- `search_locations` handler (`app.py` lines 138–169), with the
mapping done by `WeatherAPI.search_locations`: validate the query,
consult the module-level `cache` (a cached *falsy* value, e.g. `[]`,
fails the `if cached_data:` test), and on a miss map the upstream list
and store it — in a freshly constructed `Cache(ttl=300)` that is
dropped when the handler returns. -/
def searchLocationsHandler (st : Cache (List Location)) (now : ℚ)
    (query : String) (upstream : List J) :
    Except Err (List Location) × Cache (List Location) :=
  if (pyStripWs query).length < 2 then
    (.error (.valueError "Search query must be at least 2 characters"), st)
  else
    let cache_key := "search:" ++ pyLower query
    let hit := st.get now cache_key
    match hit.1 with
    | some cached_data =>
        if cached_data.isEmpty then
          -- `if cached_data:` is false for an empty list: fall through
          missPath hit.2 cache_key
        else
          (.ok cached_data, hit.2)
    | none => missPath hit.2 cache_key
where
  /-- The miss branch (`app.py` lines 153–162). -/
  missPath (st1 : Cache (List Location)) (cache_key : String) :
      Except Err (List Location) × Cache (List Location) :=
    match mapLocations upstream with
    | .error e => (.error e, st1)
    | .ok locations =>
        let search_cache : Cache (List Location) := ⟨300, []⟩
        let _search_cache := search_cache.set now cache_key locations
        (.ok locations, st1)

/-- `get_air_quality` handler (`app.py` lines 171–203), cache core:
`lat`/`lon` arrive as request strings and key the cache verbatim
(`"aqi:<lat>,<lon>"`); on a miss the mapped result is stored in a
freshly constructed `Cache(ttl=1800)` that is dropped on return.  (The
`float()` validation of `lat`/`lon` rejects malformed numerics before
any cache access and does not affect cache behaviour; the handler here
receives them already well-formed.) -/
def airQualityHandler (st : Cache AirQuality) (now : ℚ)
    (lat lon : String) (upstream : J) :
    Except Err AirQuality × Cache AirQuality :=
  let cache_key := "aqi:" ++ lat ++ "," ++ lon
  let hit := st.get now cache_key
  match hit.1 with
  | some cached_data => (.ok cached_data, hit.2)
  | none =>
      match mapAirPollution upstream with
      | .error e => (.error e, hit.2)
      | .ok data =>
          let aqi_cache : Cache AirQuality := ⟨1800, []⟩
          let _aqi_cache := aqi_cache.set now cache_key data
          (.ok data, hit.2)

/-- `get_current_weather` handler (`app.py` lines 32–83), cache core
for the by-city form: key `"current:<city>:<units>"`, and on a miss the
mapped result is stored back into the *same* module-level cache that
`get` consulted. -/
def currentWeatherHandler (st : Cache CurrentWeather) (now : ℚ)
    (city units : String) (upstream : J) :
    Except Err CurrentWeather × Cache CurrentWeather :=
  let cache_key := "current:" ++ city ++ ":" ++ units
  let hit := st.get now cache_key
  match hit.1 with
  | some cached_data => (.ok cached_data, hit.2)
  | none =>
      match mapCurrentWeather upstream units with
      | .error e => (.error e, hit.2)
      | .ok data => (.ok data, hit.2.set now cache_key data)

/-! ## Claim-side characterization of the daily aggregate

A clean description of what the forecast loop's `daily_data` holds,
stated directly in terms of the final list of points; the aggregation
claim is proved by showing the loop's actual accumulator meets it. -/

/-- Append an element unless it is already present: the order in which
a left-to-right scan first sees each distinct value. -/
def seenInsert (l : List String) (d : String) : List String :=
  if d ∈ l then l else l ++ [d]

/-- All distinct local dates of a point sequence, in first-seen order. -/
def firstDates (pts : List ForecastPoint) : List String :=
  pts.foldl (fun acc p => seenInsert acc p.dateKey) []

/-- The daily entry a date contributes, given that date's points
`p :: rest` in sequence order: running min/max of their
`temp_min`/`temp_max`, and the first point's icon and description. -/
def entryOf (p : ForecastPoint) (rest : List ForecastPoint) : DailyEntry :=
  ⟨p.dateKey,
    rest.foldl (fun m q => min m q.temp_min) p.temp_min,
    rest.foldl (fun m q => max m q.temp_max) p.temp_max,
    p.icon, p.description, p.temp_unit⟩

/-- The daily entry a date `d` receives from a point sequence: the
aggregate of exactly the points falling on `d` (the empty case never
arises for a date drawn from the sequence itself). -/
def dailyEntryFor (pts : List ForecastPoint) (d : String) : DailyEntry :=
  match pts.filter (fun p => decide (p.dateKey = d)) with
  | [] => ⟨d, 0, 0, "", "", ""⟩
  | p :: rest => entryOf p rest

/-- The untruncated daily aggregate of a point sequence: one entry per
distinct local date in first-seen order, each aggregating exactly that
date's points. -/
def dailyOfPoints (pts : List ForecastPoint) : List DailyEntry :=
  (firstDates pts).map (dailyEntryFor pts)

/-! ## Concrete payloads used by counterexamples and witnesses -/

/-- A cache holding one entry that expires at time 5 (value 7, stored
at time 0 by a `ttl = 5` instance). -/
def boundaryCache : Cache ℕ := ⟨5, [("k", ⟨7, 5, 0⟩)]⟩

/-- A second cache at the expiry boundary, for the stats reader. -/
def boundaryCache2 : Cache ℕ := ⟨5, [("r", ⟨9, 5, 0⟩)]⟩

/-- A three-entry cache observed at `now = 6`: entries `a` and `c` are
strictly expired, `b` is live. -/
def mixedCache : Cache ℕ :=
  ⟨10, [("a", ⟨1, 5, 0⟩), ("b", ⟨2, 10, 0⟩), ("c", ⟨3, 1, 0⟩)]⟩

/-- A current-weather payload shaped like the repository's own test
payload, parametric in every field value, with the three defaulted
upstream fields — `pressure`, `visibility`, `timezone` — absent. -/
def cwPayloadND (city country : String) (dt : ℤ)
    (temp feels hum ws lat lon : ℚ) (desc icon : String) : J :=
  J.obj [("name", .s city), ("sys", .obj [("country", .s country)]),
    ("dt", .i dt),
    ("main", .obj [("temp", .n temp), ("feels_like", .n feels),
      ("humidity", .n hum)]),
    ("wind", .obj [("speed", .n ws)]),
    ("weather", .arr [.obj [("description", .s desc), ("icon", .s icon)]]),
    ("coord", .obj [("lat", .n lat), ("lon", .n lon)])]

/-- A current-weather payload with `dt` present but the required field
`name` absent. -/
def cwPayloadNoName (dt : ℤ) : J := J.obj [("dt", .i dt)]

/-- A forecast list item, parametric in its values, with `pressure` and
`visibility` absent (both have upstream defaults in the forecast
mapper). -/
def fcItemND (dt : ℤ) (t tmin tmax hum ws : ℚ) (icon desc : String) : J :=
  J.obj [("dt", .i dt),
    ("main", .obj [("temp", .n t), ("temp_min", .n tmin),
      ("temp_max", .n tmax), ("humidity", .n hum)]),
    ("weather", .arr [.obj [("description", .s desc), ("icon", .s icon)]]),
    ("wind", .obj [("speed", .n ws)])]

/-- A forecast list item whose `main` dict lacks the required
`temp_min`. -/
def fcItemNoTempMin (dt : ℤ) (t : ℚ) : J :=
  J.obj [("dt", .i dt), ("main", .obj [("temp", .n t)])]

/-- The fields of a forecast payload (city `Paris`, `FR`), parametric
in the timezone offset and the point list. -/
def fcFields (tz : ℤ) (items : List J) : List (String × J) :=
  [("city", .obj [("name", .s "Paris"), ("country", .s "FR"),
      ("timezone", .i tz),
      ("coord", .obj [("lat", .n (mkRat 4885 100)),
        ("lon", .n (mkRat 235 100))])]),
    ("list", .arr items)]

/-- A forecast payload built from `fcFields`. -/
def fcPayload (tz : ℤ) (items : List J) : J := J.obj (fcFields tz items)

/-- The three forecast items of the aggregation witness: two points on
local date 2022-01-20 (offset +01:00) with temps 12.5 and 14.2 — the
spec's own worked example — and one point on 2022-01-21. -/
def c6Items : List J :=
  [fcItemND 1642680000 (mkRat 125 10) (mkRat 125 10) (mkRat 125 10) 65
      (mkRat 35 10) "10d" "light rain",
    fcItemND 1642690800 (mkRat 142 10) (mkRat 142 10) (mkRat 142 10) 70
      4 "04d" "scattered clouds",
    fcItemND 1642723200 5 4 6 80 3 "01d" "clear sky"]

/-- What the forecast mapper returns on `fcPayload 3600 c6Items`. -/
def c6Result : Forecast :=
  ⟨"Paris", "FR", 3600, mkRat 977 20, mkRat 47 20,
    [⟨"2022-01-20T13:00:00+01:00", mkRat 25 2, mkRat 25 2, mkRat 25 2,
        "°C", "10d", "Light Rain", 65, 0, mkRat 7 2, 10⟩,
      ⟨"2022-01-20T16:00:00+01:00", mkRat 71 5, mkRat 71 5, mkRat 71 5,
        "°C", "04d", "Scattered Clouds", 70, 0, 4, 10⟩,
      ⟨"2022-01-21T01:00:00+01:00", 5, 4, 6,
        "°C", "01d", "Clear Sky", 80, 0, 3, 10⟩],
    [⟨"2022-01-20", mkRat 25 2, mkRat 71 5, "10d", "Light Rain", "°C"⟩,
      ⟨"2022-01-21", 4, 6, "01d", "Clear Sky", "°C"⟩]⟩

/-- A forecast payload whose `city` dict lacks the required
`timezone`. -/
def fcPayloadNoTz : J :=
  J.obj [("city", .obj [("name", .s "Paris"), ("country", .s "FR")]),
    ("list", .arr [])]

/-- A geocoding item, parametric in its values, with no `state` field
(`state` defaults to the empty string). -/
def geoItemNoState (name country : String) (lat lon : ℚ) : J :=
  J.obj [("name", .s name), ("country", .s country),
    ("lat", .n lat), ("lon", .n lon)]

/-- A geocoding item with a `state` field. -/
def geoItemState (name state country : String) (lat lon : ℚ) : J :=
  J.obj [("name", .s name), ("state", .s state), ("country", .s country),
    ("lat", .n lat), ("lon", .n lon)]

/-- A geocoding item whose required `lat` is absent (fields before it,
including the defaulted `state`, all present). -/
def geoItemNoLat (name state country : String) : J :=
  J.obj [("name", .s name), ("state", .s state), ("country", .s country)]

/-- An air-pollution payload, parametric in AQI and one component. -/
def aqPayload (aqi : ℤ) (pm : ℚ) : J :=
  J.obj [("list", .arr [J.obj [("main", .obj [("aqi", .i aqi)]),
    ("components", .obj [("pm2_5", .n pm)])]])]

/-- An air-pollution payload whose first list item's `main` dict lacks
the required `aqi`. -/
def aqPayloadNoAqi : J :=
  J.obj [("list", .arr [J.obj [("main", .obj [])]])]

/-! ## Lemmas about the dict model -/

theorem dlookup_dinsert_self {α : Type} (l : List (String × α))
    (k : String) (v : α) : dlookup (dinsert l k v) k = some v := by
  induction l with
  | nil => simp [dinsert, dlookup]
  | cons h t ih =>
      obtain ⟨k', v'⟩ := h
      by_cases hk : k' = k
      · simp [dinsert, hk, dlookup]
      · simp [dinsert, hk, dlookup, ih]

theorem dlookup_dinsert_ne {α : Type} (l : List (String × α))
    (k k' : String) (v : α) (h : k' ≠ k) :
    dlookup (dinsert l k v) k' = dlookup l k' := by
  induction l with
  | nil => simp [dinsert, dlookup, Ne.symm h]
  | cons hd t ih =>
      obtain ⟨k₀, v₀⟩ := hd
      by_cases hk : k₀ = k
      · subst hk
        simp [dinsert, dlookup, Ne.symm h]
      · simp [dinsert, hk, dlookup, ih]

theorem dlookup_dremove_ne {α : Type} (l : List (String × α))
    (k k' : String) (h : k' ≠ k) :
    dlookup (dremove l k) k' = dlookup l k' := by
  induction l with
  | nil => simp [dremove]
  | cons hd t ih =>
      obtain ⟨k₀, v₀⟩ := hd
      by_cases hk : k₀ = k
      · subst hk
        simp [dremove, dlookup, Ne.symm h]
      · simp [dremove, hk, dlookup, ih]

theorem dlookup_eq_none {α : Type} (l : List (String × α)) (k : String) :
    dlookup l k = none ↔ k ∉ dkeys l := by
  induction l with
  | nil => simp [dlookup, dkeys]
  | cons hd t ih =>
      obtain ⟨k₀, v₀⟩ := hd
      by_cases hk : k₀ = k
      · subst hk
        simp [dlookup, dkeys]
      · simp only [dlookup, if_neg hk, dkeys, List.map_cons, List.mem_cons]
        rw [ih]
        simp [dkeys, Ne.symm hk]

theorem dlookup_mem {α : Type} (l : List (String × α)) (k : String)
    (v : α) (h : dlookup l k = some v) : (k, v) ∈ l := by
  induction l with
  | nil => simp [dlookup] at h
  | cons hd t ih =>
      obtain ⟨k₀, v₀⟩ := hd
      by_cases hk : k₀ = k
      · subst hk
        simp [dlookup] at h
        simp [h]
      · simp [dlookup, hk] at h
        exact List.mem_cons_of_mem _ (ih h)

theorem dlookup_dremove_self {α : Type} (l : List (String × α))
    (k : String) (hnd : (dkeys l).Nodup) :
    dlookup (dremove l k) k = none := by
  induction l with
  | nil => simp [dremove, dlookup]
  | cons hd t ih =>
      obtain ⟨k₀, v₀⟩ := hd
      simp only [dkeys, List.map_cons, List.nodup_cons] at hnd
      by_cases hk : k₀ = k
      · subst hk
        simpa [dremove, dlookup_eq_none, dkeys] using hnd.1
      · simp [dremove, hk, dlookup, ih hnd.2]

/-! ## C2: set-then-get returns the stored value before expiry -/

/-- C2 (confirmed).  For every key `k` and value `v`, a `get k` at any
time `now'` not beyond the entry's expiry (`now' ≤ now + ttl`, in
particular any time strictly before the TTL has elapsed) returns
exactly the stored value `v`, unchanged, and leaves the cache state
untouched. -/
theorem set_then_get_hit {α : Type} (c : Cache α) (now now' : ℚ)
    (k : String) (v : α) (h : now' ≤ now + c.ttl) :
    (c.set now k v).get now' k = (some v, c.set now k v) := by
  unfold Cache.set Cache.get
  rw [dlookup_dinsert_self]
  simp only
  rw [if_neg (by simpa using not_lt.mpr h)]

/-- Witness for C2 at a concrete input: `ttl = 600`, stored at time 0,
read at time 1. -/
theorem set_then_get_hit_witness :
    (1 : ℚ) ≤ 0 + (600 : ℚ) ∧
      ((⟨600, []⟩ : Cache ℕ).set 0 "k" 42).get 1 "k" =
        (some 42, (⟨600, []⟩ : Cache ℕ).set 0 "k" 42) :=
  ⟨by norm_num, set_then_get_hit ⟨600, []⟩ 0 1 "k" 42 (by norm_num)⟩

/-! ## C3: lazy eviction on an expired read, idempotent second read -/

/-- C3 (confirmed).  When the entry under `k` has expired
(`now > expires_at`), the first `get k` returns absent and physically
removes exactly that entry (`dremove`); under the cache's key-uniqueness
invariant the key is then gone, so a second `get k` at the same time
also returns absent and leaves the state exactly as the first left
it. -/
theorem get_expired_evicts_once {α : Type} (c : Cache α) (now : ℚ)
    (k : String) (e : CacheEntry α) (hnd : (dkeys c.store).Nodup)
    (hfound : dlookup c.store k = some e) (hexp : now > e.expires_at) :
    (c.get now k).1 = none ∧
    (c.get now k).2.store = dremove c.store k ∧
    dlookup (c.get now k).2.store k = none ∧
    (c.get now k).2.get now k = (none, (c.get now k).2) := by
  have hget : c.get now k = (none, ⟨c.ttl, dremove c.store k⟩) := by
    unfold Cache.get
    rw [hfound]
    simp only
    rw [if_pos hexp]
  have hgone : dlookup (dremove c.store k) k = none :=
    dlookup_dremove_self c.store k hnd
  refine ⟨by rw [hget], by rw [hget], by rw [hget]; exact hgone, ?_⟩
  rw [hget]
  unfold Cache.get
  rw [hgone]

/-- Witness for C3: a one-entry cache whose entry expired at time 5,
read twice at time 6. -/
theorem get_expired_evicts_once_witness :
    (dkeys boundaryCache.store).Nodup ∧
    dlookup boundaryCache.store "k" = some ⟨7, 5, 0⟩ ∧
    (6 : ℚ) > (5 : ℚ) ∧
    ((boundaryCache.get 6 "k").1 = none ∧
      (boundaryCache.get 6 "k").2.store = dremove boundaryCache.store "k" ∧
      dlookup (boundaryCache.get 6 "k").2.store "k" = none ∧
      (boundaryCache.get 6 "k").2.get 6 "k" =
        (none, (boundaryCache.get 6 "k").2)) :=
  ⟨by decide, by decide, by norm_num,
    get_expired_evicts_once boundaryCache 6 "k" ⟨7, 5, 0⟩
      (by decide) (by decide) (by norm_num)⟩

/-! ## C10: every cache operation is frame-preserving on other keys -/

/-- C10 (confirmed).  `get k`, `set k v` and `delete k` leave the entry
stored under every other key `k' ≠ k` unchanged; in particular `get`'s
lazy eviction removes at most the entry of the key being read. -/
theorem cache_ops_frame {α : Type} (c : Cache α) (now : ℚ)
    (k k' : String) (v : α) (h : k' ≠ k) :
    dlookup ((c.get now k).2.store) k' = dlookup c.store k' ∧
    dlookup ((c.set now k v).store) k' = dlookup c.store k' ∧
    dlookup ((c.delete k).2.store) k' = dlookup c.store k' := by
  refine ⟨?_, ?_, ?_⟩
  · unfold Cache.get
    cases hl : dlookup c.store k with
    | none => rfl
    | some e =>
        by_cases he : now > e.expires_at
        · simp only [if_pos he]
          exact dlookup_dremove_ne c.store k k' h
        · simp only [if_neg he]
  · exact dlookup_dinsert_ne c.store k k' _ h
  · unfold Cache.delete
    cases hl : dlookup c.store k with
    | none => rfl
    | some e => exact dlookup_dremove_ne c.store k k' h

/-- Witness for C10: a two-entry cache, operations addressed to `a`,
observed at `b`. -/
theorem cache_ops_frame_witness :
    "b" ≠ "a" ∧
    (dlookup ((mixedCache.get 6 "a").2.store) "b" =
        dlookup mixedCache.store "b" ∧
      dlookup ((mixedCache.set 6 "a" 9).store) "b" =
        dlookup mixedCache.store "b" ∧
      dlookup ((mixedCache.delete "a").2.store) "b" =
        dlookup mixedCache.store "b") :=
  ⟨by decide, cache_ops_frame mixedCache 6 "a" "b" 9 (by decide)⟩

/-! ## C4: what `cleanup_expired` removes

The code removes entries with `now > expires_at` (strict); the claim's
`expires_at <= now` also demands removal at exact equality, which the
code does not perform. -/

theorem foldl_dremove_cons {α : Type} (ks : List String) (k : String)
    (v : α) (t : List (String × α)) (hk : k ∉ ks) :
    ks.foldl dremove ((k, v) :: t) = (k, v) :: ks.foldl dremove t := by
  induction ks generalizing t with
  | nil => rfl
  | cons k' ks' ih =>
      have hne : k ≠ k' := fun e => hk (e ▸ List.mem_cons_self _ _)
      have hstep : dremove ((k, v) :: t) k' = (k, v) :: dremove t k' := by
        simp [dremove, hne]
      simp only [List.foldl_cons, hstep]
      exact ih (dremove t k') (fun m => hk (List.mem_cons_of_mem _ m))

theorem foldl_dremove_filter {α : Type} (P : String × α → Bool)
    (l : List (String × α)) (hnd : (dkeys l).Nodup) :
    ((l.filter P).map Prod.fst).foldl dremove l =
      l.filter (fun p => !P p) := by
  induction l with
  | nil => rfl
  | cons hd t ih =>
      obtain ⟨k, v⟩ := hd
      simp only [dkeys, List.map_cons, List.nodup_cons] at hnd
      have hknot : k ∉ dkeys t := by simpa [dkeys] using hnd.1
      by_cases hp : P (k, v)
      · have h0 : dremove ((k, v) :: t) k = t := by simp [dremove]
        simp only [List.filter_cons, hp, if_pos, List.map_cons,
          List.foldl_cons, h0]
        simp [ih hnd.2]
      · have hkf : k ∉ (t.filter P).map Prod.fst := by
          intro hm
          exact hknot (by
            rcases List.mem_map.mp hm with ⟨p, hpmem, hfst⟩
            exact hfst ▸ List.mem_map_of_mem Prod.fst
              (List.mem_of_mem_filter hpmem))
        simp only [List.filter_cons, hp, if_neg, Bool.false_eq_true,
          not_false_iff]
        rw [foldl_dremove_cons _ _ _ _ hkf]
        simp [List.filter_cons, hp, ih hnd.2]

/-- C4 counterexample.  `boundaryCache` holds one entry with
`expires_at = 5`; calling `cleanup_expired` at `now = 5` — so
`expires_at <= now` holds — removes nothing and returns 0, while the
claim demands the entry be removed and counted. -/
theorem cleanup_boundary_not_removed :
    (5 : ℚ) ≤ 5 ∧
    (boundaryCache.cleanup_expired 5).1 = 0 ∧
    (boundaryCache.cleanup_expired 5).2 = boundaryCache ∧
    dlookup (boundaryCache.cleanup_expired 5).2.store "k" =
      some ⟨7, 5, 0⟩ := by
  refine ⟨by norm_num, ?_, ?_, ?_⟩ <;> decide

/-- C4 as amended (strict comparison).  Under the cache's
key-uniqueness invariant, `cleanup_expired` removes exactly the entries
with `expires_at < now` — every such entry and no other — returns their
number, and keeps every entry with `expires_at ≥ now` (in order), with
the TTL untouched. -/
theorem cleanup_expired_removes_strictly_expired {α : Type}
    (c : Cache α) (now : ℚ) (hnd : (dkeys c.store).Nodup) :
    (c.cleanup_expired now).2.store =
      c.store.filter (fun p => !decide (now > p.2.expires_at)) ∧
    (c.cleanup_expired now).1 =
      (c.store.filter (fun p => decide (now > p.2.expires_at))).length ∧
    (c.cleanup_expired now).2.ttl = c.ttl := by
  refine ⟨?_, ?_, ?_⟩
  · exact foldl_dremove_filter _ c.store hnd
  · simp [Cache.cleanup_expired]
  · rfl

/-- Witness for amended C4: `mixedCache` at `now = 6` drops exactly the
two strictly expired entries `a` and `c` and keeps `b`. -/
theorem cleanup_expired_removes_strictly_expired_witness :
    (dkeys mixedCache.store).Nodup ∧
    ((mixedCache.cleanup_expired 6).2.store =
        mixedCache.store.filter
          (fun p => !decide ((6 : ℚ) > p.2.expires_at)) ∧
      (mixedCache.cleanup_expired 6).1 =
        (mixedCache.store.filter
          (fun p => decide ((6 : ℚ) > p.2.expires_at))).length ∧
      (mixedCache.cleanup_expired 6).2.ttl = mixedCache.ttl) :=
  ⟨by decide,
    cleanup_expired_removes_strictly_expired mixedCache 6 (by decide)⟩

/-! ## C5: how readers treat not-yet-removed expired entries -/

/-- C5 counterexample.  `boundaryCache2` holds one entry with
`expires_at = 5`.  At `now = 5` — so `expires_at ≤ now` holds — `get`
returns the value (a hit, not the miss the claim demands) and `stats`
counts the entry as active, not expired. -/
theorem reader_boundary_hit :
    (5 : ℚ) ≤ 5 ∧
    (boundaryCache2.get 5 "r").1 = some 9 ∧
    (boundaryCache2.stats 5).expired_entries = 0 ∧
    (boundaryCache2.stats 5).active_entries = 1 := by
  refine ⟨by norm_num, ?_, ?_, ?_⟩ <;> decide

/-- C5 as amended (strict comparison).  Both readers treat an entry as
expired exactly when `now > expires_at`: for such an entry — even while
still physically stored — `get` returns a miss, `stats` counts it among
`expired_entries` (so that count is positive) using the same strict
criterion for every entry, and the active/expired split partitions the
total. -/
theorem readers_treat_strictly_expired_as_absent {α : Type}
    (c : Cache α) (now : ℚ) (k : String) (e : CacheEntry α)
    (hfound : dlookup c.store k = some e) (hexp : now > e.expires_at) :
    (c.get now k).1 = none ∧
    (c.stats now).expired_entries =
      (c.store.filter (fun p => decide (now > p.2.expires_at))).length ∧
    1 ≤ (c.stats now).expired_entries ∧
    (c.stats now).active_entries + (c.stats now).expired_entries =
      (c.stats now).total_entries := by
  have hmem : (k, e) ∈ c.store := dlookup_mem c.store k e hfound
  have hmemf : (k, e) ∈
      c.store.filter (fun p => decide (now > p.2.expires_at)) :=
    List.mem_filter.mpr ⟨hmem, by simpa using hexp⟩
  have hlen : 1 ≤
      (c.store.filter (fun p => decide (now > p.2.expires_at))).length :=
    List.length_pos.mpr (List.ne_nil_of_mem hmemf)
  refine ⟨?_, rfl, hlen, ?_⟩
  · unfold Cache.get
    rw [hfound]
    simp only
    rw [if_pos hexp]
  · exact Nat.sub_add_cancel (List.length_filter_le _ _)

/-- Witness for amended C5: `mixedCache` read at `now = 6` under key
`a` (its entry expired at 5). -/
theorem readers_treat_strictly_expired_as_absent_witness :
    dlookup mixedCache.store "a" = some ⟨1, 5, 0⟩ ∧
    (6 : ℚ) > (5 : ℚ) ∧
    ((mixedCache.get 6 "a").1 = none ∧
      (mixedCache.stats 6).expired_entries =
        (mixedCache.store.filter
          (fun p => decide ((6 : ℚ) > p.2.expires_at))).length ∧
      1 ≤ (mixedCache.stats 6).expired_entries ∧
      (mixedCache.stats 6).active_entries +
          (mixedCache.stats 6).expired_entries =
        (mixedCache.stats 6).total_entries) :=
  ⟨by decide, by norm_num,
    readers_treat_strictly_expired_as_absent mixedCache 6 "a" ⟨1, 5, 0⟩
      (by decide) (by norm_num)⟩

/-! ## C7: `display_name` with an empty state

`"<name>,  <country>".strip(', ')` strips only at the two ends of the
string, so the interior `",  "` left by an empty state survives: the
code produces `"Paris,  FR"` where spec and comment promise
`"Paris FR"`. -/

/-- C7, code evaluated at the failing input: the empty-state item maps
to `display_name = "Paris,  FR"` — dangling comma and double space not
collapsed — while the non-empty-state item is formatted as the claim
says. -/
theorem display_name_empty_state_not_collapsed :
    (mapLocations [geoItemNoState "Paris" "FR" (mkRat 4885 100)
          (mkRat 235 100),
        geoItemState "Springfield" "IL" "US" (mkRat 398 10)
          (mkRat (-8965) 100)]).map
        (fun ls => ls.map Location.display_name) =
      .ok ["Paris,  FR", "Springfield, IL US"] ∧
    "Paris,  FR" ≠ "Paris FR" :=
  ⟨rfl, by decide⟩

/-! ## C8: documented defaults for missing upstream fields

The current-weather mapper does default `pressure`, `visibility` and
`timezone` to 0.  The forecast mapper defaults `pressure` to 0 but
`visibility` to 10000 m (10 km) and has *no* default for the timezone
offset. -/

/-- C8 counterexample.  A forecast item with `visibility` absent maps
to `visibility = 10` (km), not the claimed default 0; and a forecast
payload missing `city.timezone` raises `KeyError` instead of
defaulting to 0. -/
theorem forecast_defaults_counterexample :
    (mapForecast (fcPayload 0
        [fcItemND 1642680000 (mkRat 125 10) (mkRat 125 10) (mkRat 125 10)
          65 (mkRat 35 10) "01d" "clear sky"])
        "metric").map (fun r => r.points.map ForecastPoint.visibility) =
      .ok [10] ∧
    (10 : ℤ) ≠ 0 ∧
    mapForecast fcPayloadNoTz "metric" = .error (.keyError "timezone") :=
  ⟨rfl, by decide, rfl⟩

/-- C8 as amended.  For every upstream payload of the given shape and
any field values: the current-weather mapper maps omitted `pressure`,
`visibility` and `timezone` to 0; the forecast mapper maps omitted
`pressure` to 0 but omitted `visibility` to `10000 // 1000 = 10` km,
and fails with a `KeyError` when the timezone offset is omitted. -/
theorem mapper_documented_defaults :
    (∀ (city country desc icon units : String) (dt : ℤ)
        (temp feels hum ws lat lon : ℚ),
      (mapCurrentWeather
          (cwPayloadND city country dt temp feels hum ws lat lon desc icon)
          units).map
          (fun r => (r.pressure, r.visibility, r.timezone_offset)) =
        .ok (0, 0, 0)) ∧
    (∀ (tz dt : ℤ) (t tmin tmax hum ws : ℚ) (icon desc units : String),
      (mapForecast (fcPayload tz [fcItemND dt t tmin tmax hum ws icon desc])
          units).map
          (fun r => r.points.map (fun p => (p.pressure, p.visibility))) =
        .ok [(0, 10)]) ∧
    mapForecast fcPayloadNoTz "metric" = .error (.keyError "timezone") :=
  ⟨fun _ _ _ _ _ _ _ _ _ _ _ _ => rfl,
    fun _ _ _ _ _ _ _ _ _ _ => rfl, rfl⟩

/-! ## C9: what the mappers raise on a missing required field

No `MappingError` exists anywhere in the source; a missing required
field surfaces as Python's built-in `KeyError` from the plain dict
subscript. -/

/-- C9 counterexample.  The current-weather mapper, on a payload whose
required `name` is absent, raises `KeyError('name')` — which is not a
`MappingError` kind. -/
theorem missing_required_field_not_mapping_error :
    mapCurrentWeather (cwPayloadNoName 1642680000) "metric" =
      .error (.keyError "name") ∧
    Err.isMapping (.keyError "name") = false :=
  ⟨rfl, rfl⟩

/-- C9 as amended.  Each mapper fails — it does not substitute a silent
default — when a required upstream field without a documented default
is absent, but the failure is the uncategorized built-in
`KeyError` naming the missing field, not a dedicated `MappingError`
kind: current weather missing `name`, a forecast point missing
`temp_min`, a geocoding item missing `lat`, air pollution missing
`aqi`. -/
theorem mappers_raise_keyerror_on_missing_required :
    (∀ (dt : ℤ) (units : String),
      mapCurrentWeather (cwPayloadNoName dt) units =
        .error (.keyError "name")) ∧
    (∀ (tz dt : ℤ) (t : ℚ) (units : String),
      mapForecast (fcPayload tz [fcItemNoTempMin dt t]) units =
        .error (.keyError "temp_min")) ∧
    (∀ name state country : String,
      mapLocations [geoItemNoLat name state country] =
        .error (.keyError "lat")) ∧
    mapAirPollution aqPayloadNoAqi = .error (.keyError "aqi") :=
  ⟨fun _ _ => rfl, fun _ _ _ _ => rfl, fun _ _ _ => rfl, rfl⟩

/-! ## C1: does the miss path populate the cache `get` consults?

For the search and air-quality kinds it does not: the handler stores
the mapped result in a freshly constructed local `Cache` object that is
dropped on return, so the module-level cache that `get` consulted stays
empty and an identical request never hits. -/

/-- C1, code evaluated at the failing input.  Starting from an empty
module-level cache: a search request succeeds, yet the cache that
`get` consults is still empty afterwards, and the identical request
one second later (well within the 5-minute search TTL) misses again;
the air-quality handler behaves the same way for its key
`"aqi:10,20"` within its 30-minute TTL. -/
theorem search_and_air_quality_results_never_cached :
    (searchLocationsHandler ⟨600, []⟩ 0 "Paris"
        [geoItemNoState "Paris" "FR" (mkRat 4885 100) (mkRat 235 100)]).1 =
      .ok [⟨"Paris", "FR", "", mkRat 4885 100, mkRat 235 100,
        "Paris,  FR"⟩] ∧
    (searchLocationsHandler ⟨600, []⟩ 0 "Paris"
        [geoItemNoState "Paris" "FR" (mkRat 4885 100)
          (mkRat 235 100)]).2.store = [] ∧
    ((searchLocationsHandler ⟨600, []⟩ 0 "Paris"
        [geoItemNoState "Paris" "FR" (mkRat 4885 100)
          (mkRat 235 100)]).2.get 1 "search:paris").1 = none ∧
    (airQualityHandler ⟨600, []⟩ 0 "10" "20"
        (aqPayload 2 (mkRat 52 10))).1 =
      .ok ⟨2, "Fair", mkRat 52 10, 0, 0, 0, 0, 0⟩ ∧
    (airQualityHandler ⟨600, []⟩ 0 "10" "20"
        (aqPayload 2 (mkRat 52 10))).2.store = [] ∧
    ((airQualityHandler ⟨600, []⟩ 0 "10" "20"
        (aqPayload 2 (mkRat 52 10))).2.get 1 "aqi:10,20").1 = none :=
  ⟨rfl, rfl, rfl, rfl, rfl, rfl⟩

/-! ## C6: the forecast's daily aggregate

Lemmas characterizing the loop's `daily_data` accumulator, leading to
the aggregation theorem. -/

theorem bind_ok {ε α β : Type} (x : Except ε α) (f : α → Except ε β)
    (r : β) : (x >>= f) = .ok r ↔ ∃ a, x = .ok a ∧ f a = .ok r := by
  cases x <;> simp [Bind.bind, Except.bind]

theorem processForecastItems_ok (tz : ℤ) (units : String)
    (items : List J) (acc res :
      List ForecastPoint × List (String × DailyEntry))
    (h : processForecastItems tz units items acc = .ok res) :
    ∃ neu : List ForecastPoint, res.1 = acc.1 ++ neu ∧
      neu.length = items.length ∧ res.2 = neu.foldl aggStep acc.2 := by
  induction items generalizing acc with
  | nil =>
      refine ⟨[], ?_, rfl, ?_⟩ <;>
        simp_all [processForecastItems]
  | cons it rest ih =>
      simp only [processForecastItems, bind_ok] at h
      obtain ⟨p, _, hrest⟩ := h
      obtain ⟨neu', h1, h2, h3⟩ := ih _ hrest
      exact ⟨p :: neu', by simpa using h1, by simpa using h2,
        by simpa using h3⟩

theorem dkeys_dinsert {α : Type} (l : List (String × α)) (k : String)
    (v : α) :
    dkeys (dinsert l k v) =
      if k ∈ dkeys l then dkeys l else dkeys l ++ [k] := by
  induction l with
  | nil => simp [dinsert, dkeys]
  | cons hd t ih =>
      obtain ⟨k₀, v₀⟩ := hd
      by_cases hk : k₀ = k
      · subst hk
        simp [dinsert, dkeys]
      · have hne : k ≠ k₀ := Ne.symm hk
        simp only [dinsert, if_neg hk, dkeys, List.map_cons]
        rw [show List.map Prod.fst (dinsert t k v) = dkeys (dinsert t k v)
          from rfl, ih]
        by_cases hm : k ∈ dkeys t
        · have hm' : k ∈ List.map Prod.fst t := hm
          simp [List.mem_cons, hne, hm', hm, dkeys]
        · have hm' : k ∉ List.map Prod.fst t := hm
          simp [List.mem_cons, hne, hm', hm, dkeys]

theorem mem_seenInsert (l : List String) (k d : String) :
    d ∈ seenInsert l k ↔ d ∈ l ∨ d = k := by
  by_cases hm : k ∈ l
  · simp only [seenInsert, if_pos hm]
    constructor
    · exact Or.inl
    · rintro (h | rfl)
      · exact h
      · exact hm
  · simp [seenInsert, if_neg hm]

theorem nodup_seenInsert (l : List String) (k : String)
    (h : l.Nodup) : (seenInsert l k).Nodup := by
  by_cases hm : k ∈ l
  · simpa [seenInsert, if_pos hm] using h
  · simp only [seenInsert, if_neg hm]
    rw [List.nodup_append]
    refine ⟨h, List.nodup_singleton k, ?_⟩
    intro a ha hak
    rw [List.mem_singleton] at hak
    exact hm (hak ▸ ha)

theorem dkeys_aggStep (d : List (String × DailyEntry))
    (p : ForecastPoint) :
    dkeys (aggStep d p) = seenInsert (dkeys d) p.dateKey := by
  unfold aggStep seenInsert
  cases hl : dlookup d p.dateKey with
  | none => rw [dkeys_dinsert]
  | some e => rw [dkeys_dinsert]

theorem dkeys_agg_foldl (pts : List ForecastPoint)
    (d0 : List (String × DailyEntry)) :
    dkeys (pts.foldl aggStep d0) =
      pts.foldl (fun acc p => seenInsert acc p.dateKey) (dkeys d0) := by
  induction pts generalizing d0 with
  | nil => rfl
  | cons p rest ih =>
      simp only [List.foldl_cons]
      rw [ih (aggStep d0 p), dkeys_aggStep]

theorem nodup_foldl_seenInsert (pts : List ForecastPoint)
    (acc : List String) (h : acc.Nodup) :
    (pts.foldl (fun acc p => seenInsert acc p.dateKey) acc).Nodup := by
  induction pts generalizing acc with
  | nil => exact h
  | cons p rest ih => exact ih _ (nodup_seenInsert _ _ h)

theorem mem_foldl_seenInsert (pts : List ForecastPoint)
    (acc : List String) (d : String) :
    d ∈ pts.foldl (fun acc p => seenInsert acc p.dateKey) acc ↔
      d ∈ acc ∨ ∃ p ∈ pts, p.dateKey = d := by
  induction pts generalizing acc with
  | nil => simp
  | cons p rest ih =>
      simp only [List.foldl_cons]
      rw [ih]
      rw [mem_seenInsert]
      constructor
      · rintro ((h | h) | ⟨q, hq, hqd⟩)
        · exact Or.inl h
        · exact Or.inr ⟨p, List.mem_cons_self _ _, h.symm⟩
        · exact Or.inr ⟨q, List.mem_cons_of_mem _ hq, hqd⟩
      · rintro (h | ⟨q, hq, hqd⟩)
        · exact Or.inl (Or.inl h)
        · rcases List.mem_cons.mp hq with rfl | hq'
          · exact Or.inl (Or.inr hqd.symm)
          · exact Or.inr ⟨q, hq', hqd⟩

theorem aggStep_of_lookup_none (dl : List (String × DailyEntry))
    (p : ForecastPoint) (h : dlookup dl p.dateKey = none) :
    aggStep dl p = dinsert dl p.dateKey (freshDaily p) := by
  unfold aggStep
  rw [h]

theorem aggStep_of_lookup_some (dl : List (String × DailyEntry))
    (p : ForecastPoint) (e : DailyEntry)
    (h : dlookup dl p.dateKey = some e) :
    aggStep dl p = dinsert dl p.dateKey
      ⟨e.date, min e.temp_min p.temp_min, max e.temp_max p.temp_max,
        e.icon, e.description, e.temp_unit⟩ := by
  unfold aggStep
  rw [h]

theorem dlookup_aggStep_ne (dl : List (String × DailyEntry))
    (q : ForecastPoint) (d : String) (h : q.dateKey ≠ d) :
    dlookup (aggStep dl q) d = dlookup dl d := by
  unfold aggStep
  cases dlookup dl q.dateKey with
  | none => exact dlookup_dinsert_ne _ _ _ _ (Ne.symm h)
  | some e => exact dlookup_dinsert_ne _ _ _ _ (Ne.symm h)

theorem dlookup_agg (pts : List ForecastPoint) (d : String) :
    dlookup (pts.foldl aggStep []) d =
      match pts.filter (fun p => decide (p.dateKey = d)) with
      | [] => none
      | p :: rest => some (entryOf p rest) := by
  induction pts using List.reverseRecOn with
  | nil => rfl
  | append_singleton pts q ih =>
      rw [List.foldl_append, List.foldl_cons, List.foldl_nil,
        List.filter_append]
      by_cases hq : q.dateKey = d
      · subst hq
        cases hA : dlookup (pts.foldl aggStep []) q.dateKey with
        | none =>
            rw [hA] at ih
            rw [aggStep_of_lookup_none _ _ hA, dlookup_dinsert_self]
            cases hf : pts.filter (fun p => decide (p.dateKey = q.dateKey))
              with
            | nil => simp [entryOf, freshDaily, List.filter_cons]
            | cons p rest =>
                rw [hf] at ih
                exact Option.noConfusion ih
        | some e =>
            rw [hA] at ih
            rw [aggStep_of_lookup_some _ _ e hA, dlookup_dinsert_self]
            cases hf : pts.filter (fun p => decide (p.dateKey = q.dateKey))
              with
            | nil =>
                rw [hf] at ih
                exact Option.noConfusion ih
            | cons p rest =>
                rw [hf] at ih
                have he : e = entryOf p rest := by
                  simpa using ih
                subst he
                simp [List.filter_cons, entryOf, List.foldl_append]
      · have hfq : List.filter (fun p => decide (p.dateKey = d)) [q] = [] :=
          by simp [List.filter_cons, hq]
        rw [hfq, List.append_nil,
          dlookup_aggStep_ne _ _ _ (fun e => hq e), ih]

theorem map_snd_eq_keys_map {β : Type} (l : List (String × β))
    (f : String → β) (hnd : (dkeys l).Nodup)
    (hf : ∀ k ∈ dkeys l, dlookup l k = some (f k)) :
    l.map Prod.snd = (dkeys l).map f := by
  induction l with
  | nil => rfl
  | cons hd t ih =>
      obtain ⟨k, v⟩ := hd
      simp only [dkeys, List.map_cons, List.nodup_cons] at hnd
      have hv : v = f k := by
        have := hf k (by simp [dkeys])
        simpa [dlookup] using this
      have htail : ∀ k' ∈ dkeys t, dlookup t k' = some (f k') := by
        intro k' hk'
        have hne : ¬k = k' := fun e => hnd.1 (e ▸ hk')
        have := hf k' (by simp [dkeys]; exact Or.inr (by simpa [dkeys] using hk'))
        simpa [dlookup, hne] using this
      simp only [List.map_cons, dkeys]
      rw [hv, ih hnd.2 htail]
      rfl

theorem foldl_min_le_start (f : ForecastPoint → ℚ)
    (l : List ForecastPoint) (a : ℚ) :
    l.foldl (fun m q => min m (f q)) a ≤ a := by
  induction l generalizing a with
  | nil => simp
  | cons h t ih => exact le_trans (ih (min a (f h))) (min_le_left _ _)

theorem foldl_min_le_mem (f : ForecastPoint → ℚ)
    (l : List ForecastPoint) (a : ℚ) (x : ForecastPoint) (hx : x ∈ l) :
    l.foldl (fun m q => min m (f q)) a ≤ f x := by
  induction l generalizing a with
  | nil => cases hx
  | cons h t ih =>
      rcases List.mem_cons.mp hx with rfl | hx'
      · exact le_trans (foldl_min_le_start f t _) (min_le_right _ _)
      · exact ih _ hx'

theorem foldl_min_attained (f : ForecastPoint → ℚ)
    (l : List ForecastPoint) (a : ℚ) :
    l.foldl (fun m q => min m (f q)) a = a ∨
      ∃ x ∈ l, l.foldl (fun m q => min m (f q)) a = f x := by
  induction l generalizing a with
  | nil => exact Or.inl rfl
  | cons h t ih =>
      rcases ih (min a (f h)) with heq | ⟨x, hx, heq⟩
      · rcases min_choice a (f h) with hmin | hmin
        · exact Or.inl (by rw [List.foldl_cons, heq, hmin])
        · exact Or.inr ⟨h, List.mem_cons_self _ _,
            by rw [List.foldl_cons, heq, hmin]⟩
      · exact Or.inr ⟨x, List.mem_cons_of_mem _ hx,
          by rw [List.foldl_cons, heq]⟩

theorem foldl_max_ge_start (f : ForecastPoint → ℚ)
    (l : List ForecastPoint) (a : ℚ) :
    a ≤ l.foldl (fun m q => max m (f q)) a := by
  induction l generalizing a with
  | nil => simp
  | cons h t ih => exact le_trans (le_max_left _ _) (ih (max a (f h)))

theorem foldl_max_ge_mem (f : ForecastPoint → ℚ)
    (l : List ForecastPoint) (a : ℚ) (x : ForecastPoint) (hx : x ∈ l) :
    f x ≤ l.foldl (fun m q => max m (f q)) a := by
  induction l generalizing a with
  | nil => cases hx
  | cons h t ih =>
      rcases List.mem_cons.mp hx with rfl | hx'
      · exact le_trans (le_max_right _ _) (foldl_max_ge_start f t _)
      · exact ih _ hx'

theorem foldl_max_attained (f : ForecastPoint → ℚ)
    (l : List ForecastPoint) (a : ℚ) :
    l.foldl (fun m q => max m (f q)) a = a ∨
      ∃ x ∈ l, l.foldl (fun m q => max m (f q)) a = f x := by
  induction l generalizing a with
  | nil => exact Or.inl rfl
  | cons h t ih =>
      rcases ih (max a (f h)) with heq | ⟨x, hx, heq⟩
      · rcases max_choice a (f h) with hmax | hmax
        · exact Or.inl (by rw [List.foldl_cons, heq, hmax])
        · exact Or.inr ⟨h, List.mem_cons_self _ _,
            by rw [List.foldl_cons, heq, hmax]⟩
      · exact Or.inr ⟨x, List.mem_cons_of_mem _ hx,
          by rw [List.foldl_cons, heq]⟩

theorem map_snd_agg (pts : List ForecastPoint) :
    (pts.foldl aggStep []).map Prod.snd = dailyOfPoints pts := by
  have hkeys : dkeys (pts.foldl aggStep []) = firstDates pts := by
    rw [dkeys_agg_foldl]
    rfl
  have hnd : (dkeys (pts.foldl aggStep [])).Nodup := by
    rw [dkeys_agg_foldl]
    exact nodup_foldl_seenInsert pts [] List.nodup_nil
  rw [map_snd_eq_keys_map (pts.foldl aggStep []) (dailyEntryFor pts)
      hnd ?_, hkeys, dailyOfPoints]
  intro k hk
  rw [dlookup_agg]
  unfold dailyEntryFor
  cases hf : pts.filter (fun p => decide (p.dateKey = k)) with
  | nil =>
      exfalso
      have hnone : dlookup (pts.foldl aggStep []) k = none := by
        rw [dlookup_agg, hf]
      exact ((dlookup_eq_none _ _).mp hnone) hk
  | cons p rest => rfl

theorem dailyOfPoints_spec (pts : List ForecastPoint) (e : DailyEntry)
    (he : e ∈ dailyOfPoints pts) :
    (∀ p ∈ pts, p.dateKey = e.date →
      e.temp_min ≤ p.temp_min ∧ p.temp_max ≤ e.temp_max) ∧
    (∃ p, p ∈ pts ∧ p.dateKey = e.date ∧ e.temp_min = p.temp_min) ∧
    (∃ p, p ∈ pts ∧ p.dateKey = e.date ∧ e.temp_max = p.temp_max) ∧
    (∃ p rest, pts.filter (fun q => decide (q.dateKey = e.date)) =
      p :: rest ∧ e.icon = p.icon ∧ e.description = p.description ∧
      e.date = p.dateKey) := by
  obtain ⟨d, hd, hde⟩ := List.mem_map.mp he
  obtain ⟨p1, hp1, hp1d⟩ :=
    ((mem_foldl_seenInsert pts [] d).mp hd).resolve_left (by simp)
  have hp1f : p1 ∈ pts.filter (fun q => decide (q.dateKey = d)) :=
    List.mem_filter.mpr ⟨hp1, by simp [hp1d]⟩
  cases hf : pts.filter (fun q => decide (q.dateKey = d)) with
  | nil => rw [hf] at hp1f; cases hp1f
  | cons p0 rest =>
      have hee : e = entryOf p0 rest := by
        rw [← hde]
        unfold dailyEntryFor
        rw [hf]
      have hp0 : p0 ∈ pts ∧ p0.dateKey = d := by
        have := List.mem_filter.mp (hf ▸ List.mem_cons_self p0 rest)
        exact ⟨this.1, of_decide_eq_true this.2⟩
      have hrest : ∀ x ∈ rest, x ∈ pts ∧ x.dateKey = d := by
        intro x hx
        have := List.mem_filter.mp
          (hf ▸ List.mem_cons_of_mem p0 hx)
        exact ⟨this.1, of_decide_eq_true this.2⟩
      have hdate : e.date = d := by rw [hee]; exact hp0.2
      subst hee
      refine ⟨?_, ?_, ?_, ?_⟩
      · intro p hp hpd
        have hpf : p ∈ pts.filter (fun q => decide (q.dateKey = d)) :=
          List.mem_filter.mpr ⟨hp, by simp [hpd, hdate]⟩
        rw [hf] at hpf
        rcases List.mem_cons.mp hpf with rfl | hpr
        · exact ⟨foldl_min_le_start _ _ _, foldl_max_ge_start _ _ _⟩
        · exact ⟨foldl_min_le_mem _ _ _ _ hpr, foldl_max_ge_mem _ _ _ _ hpr⟩
      · rcases foldl_min_attained ForecastPoint.temp_min rest p0.temp_min
          with h | ⟨x, hx, h⟩
        · exact ⟨p0, hp0.1, by rw [hp0.2, hdate], h⟩
        · exact ⟨x, (hrest x hx).1, by rw [(hrest x hx).2, hdate], h⟩
      · rcases foldl_max_attained ForecastPoint.temp_max rest p0.temp_max
          with h | ⟨x, hx, h⟩
        · exact ⟨p0, hp0.1, by rw [hp0.2, hdate], h⟩
        · exact ⟨x, (hrest x hx).1, by rw [(hrest x hx).2, hdate], h⟩
      · exact ⟨p0, rest, by rw [hdate]; exact hf, rfl, rfl, hp0.2.symm ▸ hdate⟩

/-- C6 (confirmed).  Whenever the forecast mapper succeeds, its daily
aggregate is exactly the per-timestamp points grouped by the
calendar-date prefix of their localized ISO timestamp, in first-seen
date order, truncated to at most 7 entries, while the points sequence
itself keeps one point per upstream list item (never truncated); each
date's entry carries the minimum `temp_min` and maximum `temp_max` over
that date's points (both bounds attained) and the icon and description
of the first point seen for that date. -/
theorem forecast_daily_aggregation (fields : List (String × J))
    (items : List J) (units : String) (r : Forecast)
    (hlist : dlookup fields "list" = some (J.arr items))
    (hok : mapForecast (J.obj fields) units = .ok r) :
    r.points.length = items.length ∧
    r.daily_forecast = (dailyOfPoints r.points).take 7 ∧
    r.daily_forecast.length ≤ 7 ∧
    ∀ e ∈ dailyOfPoints r.points,
      (∀ p ∈ r.points, p.dateKey = e.date →
        e.temp_min ≤ p.temp_min ∧ p.temp_max ≤ e.temp_max) ∧
      (∃ p, p ∈ r.points ∧ p.dateKey = e.date ∧ e.temp_min = p.temp_min) ∧
      (∃ p, p ∈ r.points ∧ p.dateKey = e.date ∧ e.temp_max = p.temp_max) ∧
      (∃ p rest,
        r.points.filter (fun q => decide (q.dateKey = e.date)) =
          p :: rest ∧ e.icon = p.icon ∧ e.description = p.description ∧
        e.date = p.dateKey) := by
  unfold mapForecast at hok
  simp only [bind_ok] at hok
  obtain ⟨city, hcity, tzj, htzj, tz, htz, listj, hlistj, items0,
    hitems0, acc, hacc, nj, hnj, name, hname, cj, hcj, country,
    hcountry, coord, hcoord, latj, hlatj, lat, hlat, lonj, hlonj, lon,
    hlon, hpure⟩ := hok
  have hlj : listj = J.arr items := by
    rw [J.getKey] at hlistj
    rw [hlist] at hlistj
    exact (Except.ok.injEq _ _).mp hlistj.symm
  subst hlj
  have hit : items0 = items := by
    rw [J.asArr] at hitems0
    exact ((Except.ok.injEq _ _).mp hitems0).symm
  subst hit
  obtain ⟨neu, h1, h2, h3⟩ :=
    processForecastItems_ok tz units _ ([], []) acc hacc
  simp only [List.nil_append] at h1
  have hr : r = ⟨name, country, tz, lat, lon, acc.1,
      (acc.2.map Prod.snd).take 7⟩ := by
    simp only [pure, Except.pure, Except.ok.injEq] at hpure
    exact hpure.symm
  subst hr
  refine ⟨?_, ?_, ?_, ?_⟩
  · simp only [h1, h2]
  · show (acc.2.map Prod.snd).take 7 = (dailyOfPoints acc.1).take 7
    rw [h3, map_snd_agg, h1]
  · exact List.length_take_le _ _
  · intro e he
    exact dailyOfPoints_spec _ e he

/-- Witness for C6: the mapper evaluated on a concrete payload — two
points on local date 2022-01-20 with temps 12.5/14.2 and one on
2022-01-21 — yields one daily entry per date in first-seen order, the
first with `temp_min = 12.5` and `temp_max = 14.2`. -/
theorem forecast_daily_aggregation_witness :
    dlookup (fcFields 3600 c6Items) "list" = some (J.arr c6Items) ∧
    mapForecast (J.obj (fcFields 3600 c6Items)) "metric" =
      .ok c6Result ∧
    c6Result.daily_forecast.map
        (fun e => (e.date, e.temp_min, e.temp_max)) =
      [("2022-01-20", mkRat 25 2, mkRat 71 5), ("2022-01-21", 4, 6)] ∧
    (c6Result.points.length = c6Items.length ∧
      c6Result.daily_forecast = (dailyOfPoints c6Result.points).take 7 ∧
      c6Result.daily_forecast.length ≤ 7 ∧
      ∀ e ∈ dailyOfPoints c6Result.points,
        (∀ p ∈ c6Result.points, p.dateKey = e.date →
          e.temp_min ≤ p.temp_min ∧ p.temp_max ≤ e.temp_max) ∧
        (∃ p, p ∈ c6Result.points ∧ p.dateKey = e.date ∧
          e.temp_min = p.temp_min) ∧
        (∃ p, p ∈ c6Result.points ∧ p.dateKey = e.date ∧
          e.temp_max = p.temp_max) ∧
        (∃ p rest,
          c6Result.points.filter (fun q => decide (q.dateKey = e.date)) =
            p :: rest ∧ e.icon = p.icon ∧ e.description = p.description ∧
          e.date = p.dateKey)) :=
  ⟨rfl, rfl, rfl,
    forecast_daily_aggregation (fcFields 3600 c6Items) c6Items "metric"
      c6Result rfl rfl⟩

end WeatherView
